import Mathlib

/-!
Verification development for the OrarioTreni repository (a terminal client for
the ViaggiaTreno real-time train API).

The Python sources are shallowly embedded as follows.

* Python strings are `List Char` (`Str` below); Python `None`-able strings are
  `Option Str`.  Python truthiness of a string variable (empty string and
  `None` are falsy) is `truthyS`; the Python `or` on such values is `pyOr`.
* `datetime` instants are identified with their millisecond offset from the
  Unix epoch (`Datetime := Int`): `datetime.fromtimestamp(ms / 1000)` denotes
  the instant `ms`, `timedelta(seconds = 30)` is `30000`, and
  `timedelta(minutes = d)` is `d * 60000`.  Comparison of instants is integer
  comparison.  `date` values are likewise identified with an integer
  (`DateV := Int`); their internals are never inspected by the embedded code.
* ANSI styling (class `Foreground` and `Style` of `orariotreni/ansicolors.py`)
  is embedded literally: the colouring helpers wrap a string in the very
  escape codes the Python source uses.  Python f-string rendering of a
  possibly-`None` value (which prints the four letters None) is `pyShow`.
* Fallible code returns `Option` or `Except PyErr`; the `PyErr` constructors
  name the Python exception that would be raised.
-/

/-- Python strings, as lists of characters. -/
abbrev Str : Type := List Char

/-- A `datetime` instant, identified with its Unix-epoch offset in
milliseconds.  `datetime.fromtimestamp(ms / 1000)` denotes the instant `ms`. -/
abbrev Datetime : Type := Int

/-- A `date` value, identified with an integer tag (its internals are never
inspected by the embedded code). -/
abbrev DateV : Type := Int

/-- Python exceptions that the embedded code can raise. -/
inductive PyErr where
  | indexError : PyErr
  | attributeError : PyErr
  | notImplementedError : PyErr
  | typeError : PyErr
  | keyError : PyErr
  | pending : PyErr
deriving DecidableEq, Repr

/-- Truthiness of a Python `str | None` value: `None` and the empty string are
falsy, every other string is truthy. -/
def truthyS : Option Str → Bool
  | none => false
  | some s => !s.isEmpty

/-- Python `a or b` on `str | None` values: `a` if truthy, else `b`. -/
def pyOr (a b : Option Str) : Option Str :=
  if truthyS a then a else b

/-- Python f-string rendering of a `str | None` value: `None` prints as the
four letters None. -/
def pyShow : Option Str → Str
  | none => ("None".data)
  | some s => s

/-- Embedding of `Foreground.red` of `orariotreni/ansicolors.py`: wrap in the red
foreground escape code, then reset to the default foreground. -/
def fg_red (t : Str) : Str := ("\x1b[31m".data) ++ t ++ ("\x1b[39m".data)

/-- Embedding of `Foreground.green` of `orariotreni/ansicolors.py`. -/
def fg_green (t : Str) : Str := ("\x1b[32m".data) ++ t ++ ("\x1b[39m".data)

/-- Embedding of `Foreground.yellow` of `orariotreni/ansicolors.py`. -/
def fg_yellow (t : Str) : Str := ("\x1b[33m".data) ++ t ++ ("\x1b[39m".data)

/-- Embedding of `Foreground.blue` of `orariotreni/ansicolors.py`. -/
def fg_blue (t : Str) : Str := ("\x1b[34m".data) ++ t ++ ("\x1b[39m".data)

/-- Embedding of `Foreground.magenta` of `orariotreni/ansicolors.py`. -/
def fg_magenta (t : Str) : Str := ("\x1b[35m".data) ++ t ++ ("\x1b[39m".data)

/-- Embedding of `Foreground.cyan` of `orariotreni/ansicolors.py`. -/
def fg_cyan (t : Str) : Str := ("\x1b[36m".data) ++ t ++ ("\x1b[39m".data)

/-- Embedding of `Style.dim` of `orariotreni/ansicolors.py`, applied through an f-string to
a `str | None` value (as `Station.get_formatted_track` does): a `None`
argument is rendered as the text None. -/
def style_dim (v : Option Str) : Str := ("\x1b[2m".data) ++ pyShow v ++ ("\x1b[22m".data)

/-- Embedding of `Style.bold` of `orariotreni/ansicolors.py`, applied through an f-string
to a `str | None` value. -/
def style_bold (v : Option Str) : Str := ("\x1b[1m".data) ++ pyShow v ++ ("\x1b[22m".data)

/-- The decimal digits of `n`, most significant first (empty for `0`). -/
def decimalDigitsMSB (n : Nat) : List Nat := (Nat.digits 10 n).reverse

/-- The decimal rendering of a natural number, as Python `str(n)` produces. -/
def decimalRepr (n : Nat) : Str :=
  if n = 0 then ['0'] else (decimalDigitsMSB n).map Nat.digitChar

/-- Zero-pad a most-significant-first digit list to width `w`, as the Python
format specifier 05d does for `w = 5`. -/
def padZeros (w : Nat) (l : List Nat) : List Nat :=
  List.replicate (w - l.length) 0 ++ l

/-- Python `f-string` rendering of an `int` with a forced sign (format `+`),
as `Train.get_formatted_delay` uses for the delay. -/
def pyFormatSign (d : Int) : Str :=
  if d < 0 then '-' :: decimalRepr d.natAbs else '+' :: decimalRepr d.natAbs

/-- The numeric value of a decimal digit character, or `none` for any other
character. -/
def charToDigit (c : Char) : Option Nat :=
  if '0' ≤ c ∧ c ≤ '9' then some (c.toNat - '0'.toNat) else none

/-- Option-valued map over a list that fails as soon as one element fails
(the shape of a Python loop that may raise). -/
def mapOption (f : α → Option β) : List α → Option (List β)
  | [] => some []
  | a :: l =>
    match f a with
    | none => none
    | some b =>
      match mapOption f l with
      | none => none
      | some bs => some (b :: bs)

/-- Except-valued map over a list that propagates the first error, the shape
of a sequential Python loop over fallible calls. -/
def mapExcept (f : α → Except ε β) : List α → Except ε (List β)
  | [] => Except.ok []
  | a :: l =>
    match f a with
    | Except.error e => Except.error e
    | Except.ok b =>
      match mapExcept f l with
      | Except.error e => Except.error e
      | Except.ok bs => Except.ok (b :: bs)

/-- Python `int(s)` restricted to the digit strings (with an optional leading
minus sign) that occur in this code base; any other character fails with
`ValueError`, modeled as `none`.  (CPython also tolerates surrounding
whitespace, a leading plus sign and underscores; none of those occur here.) -/
def digitsVal (cs : Str) : Option Nat :=
  if cs.isEmpty then none
  else
    match mapOption charToDigit cs with
    | none => none
    | some ds => some (ds.foldl (fun a d => a * 10 + d) 0)

/-- Python `int(s)` on a possibly sign-prefixed decimal string; `none` models
`ValueError`. -/
def pyInt (cs : Str) : Option Int :=
  if cs.head? = some '-' then (digitsVal (cs.drop 1)).map (fun n => -(n : Int))
  else (digitsVal cs).map (fun n => (n : Int))

/-- Embedding of `MIN_ENEE_CODE` of `viaggiatreno.py`. -/
def MIN_ENEE_CODE : Int := 0

/-- Embedding of `MAX_ENEE_CODE` of `viaggiatreno.py`. -/
def MAX_ENEE_CODE : Int := 99999

/-- Embedding of `to_station_id` of `viaggiatreno.py`: format the ENEE code as the letter S
followed by the zero-padded 5-digit decimal code (Python `f"S{code:05d}"`). -/
def to_station_id (enee_code : Nat) : Str :=
  'S' :: (padZeros 5 (decimalDigitsMSB enee_code)).map Nat.digitChar

/-- Embedding of `to_enee_code` of `viaggiatreno.py`: strip a leading S (or the prefix 830)
from the station id, parse the rest with `int`, and fail with `ValueError`
(modeled `none`) if the parse fails or the result is outside
`MIN_ENEE_CODE .. MAX_ENEE_CODE`. -/
def to_enee_code (station_id : Str) : Option Int :=
  let parsed :=
    if station_id.take 1 = ['S'] then pyInt (station_id.drop 1)
    else if station_id.take 3 = ['8', '3', '0'] then pyInt (station_id.drop 3)
    else pyInt station_id
  match parsed with
  | none => none
  | some n => if n < MIN_ENEE_CODE ∨ MAX_ENEE_CODE < n then none else some n

/-- Embedding of `to_datetime` of `orariotreni/utils.py` and `viaggiatreno.py`:
`datetime.fromtimestamp(timestamp_ms / 1000) if timestamp_ms else None`.
Both `None` and `0` are falsy, hence map to `None`; any other integer is
interpreted as the instant that many milliseconds after the Unix epoch. -/
def to_datetime (timestamp_ms : Option Int) : Option Datetime :=
  match timestamp_ms with
  | none => none
  | some v => if v = 0 then none else some v

/-- Embedding of `StopType` of `api/models.py`. -/
inductive StopType where
  | departure : StopType
  | intermediate : StopType
  | arrival : StopType
  | cancelled : StopType
deriving DecidableEq, Repr

namespace orariotreni

/-- Embedding of `map_stop_type` of `orariotreni/utils.py`: a dict lookup with the input
itself as the default, so an unrecognized code is returned unchanged and no
exception is ever raised. -/
def map_stop_type (stop_type : Str) : Str :=
  if stop_type = ('P' :: []) then ("departure".data)
  else if stop_type = ('F' :: []) then ("intermediate".data)
  else if stop_type = ('A' :: []) then ("arrival".data)
  else stop_type

end orariotreni

namespace api

/-- Embedding of `map_stop_type` of `api/utils.py`: a plain dict indexing, so an
unrecognized code raises `KeyError` (modeled as `none`). -/
def map_stop_type (stop_type : Str) : Option StopType :=
  if stop_type = ('P' :: []) then some StopType.departure
  else if stop_type = ('F' :: []) then some StopType.intermediate
  else if stop_type = ('A' :: []) then some StopType.arrival
  else none

end api

/-- One entry of `train_number_changes` (`viaggiatreno.py` builds dicts with
keys new_train_number and station). -/
structure NumberChange where
  new_train_number : Int
  station : Str
deriving DecidableEq, Repr

/-- Embedding of `TrainStop` of `api/models.py`: one decoded stop record of a train
progress response. -/
structure TrainStop where
  station_id : Str
  name : Str
  stop_type : StopType
  actual_arrival_time : Option Datetime
  actual_departure_time : Option Datetime
  arrived : Bool
  departed : Bool
  scheduled_arrival_time : Option Datetime
  scheduled_departure_time : Option Datetime
  scheduled_arrival_track : Option Str
  actual_arrival_track : Option Str
  scheduled_departure_track : Option Str
  actual_departure_track : Option Str
deriving DecidableEq, Repr

/-- Embedding of `TrainProgress` of `api/models.py`: the full decoded real-time snapshot of
one train. -/
structure TrainProgress where
  last_update_time : Option Datetime
  last_update_station : Option Str
  category : Str
  number : Int
  departure_date : DateV
  origin_station_id : Str
  origin : Str
  destination : Str
  destination_station_id : Str
  train_number_changes : List NumberChange
  departure_time : Datetime
  arrival_time : Datetime
  delay : Int
  warning : Str
  delay_reason : Option Str
  stops : List TrainStop
deriving DecidableEq, Repr

/-- Embedding of `Departure` of `api/models.py`: one raw row of a departures board. -/
structure Departure where
  category : Str
  number : Int
  departure_date : DateV
  origin_station_id : Str
  destination : Str
  scheduled_track : Option Str
  actual_track : Option Str
  departure_time : Datetime
  departed_from_origin : Bool
  delay : Int
  warning : Option Str
deriving DecidableEq, Repr

/-- The `Station` class of `orariotreni/trains.py` (and `cli/main.py`) in its
stop role: `Station.__init__` copies the fields of the first entry of `stops`
whose `station_id` equals its own (the bare-station case, where no train is
given, is not needed by any embedded function). -/
structure Station where
  station_id : Str
  name : Str
  actual_departure_track : Option Str
  scheduled_departure_track : Option Str
  actual_arrival_track : Option Str
  scheduled_arrival_track : Option Str
  arrived : Bool
  departed : Bool
  stop_type : StopType
  actual_departure_time : Option Datetime
  scheduled_departure_time : Option Datetime
  actual_arrival_time : Option Datetime
  scheduled_arrival_time : Option Datetime
deriving DecidableEq, Repr

/-- The body of `Station.__init__` of `orariotreni/trains.py` when `stops` and
`train` are given: locate the first stop whose `station_id` matches and copy
its fields.  `none` models the Python object on which the copied attributes
were never set (the lookup found nothing); in `Train.__init__` the lookup
always succeeds because the id comes from the stop list itself. -/
def Station.fromStops (station_id : Str) (name : Str) (stops : List TrainStop) :
    Option Station :=
  (stops.find? (fun s => s.station_id = station_id)).map (fun stop =>
    { station_id := station_id
      name := name
      actual_departure_track := stop.actual_departure_track
      scheduled_departure_track := stop.scheduled_departure_track
      actual_arrival_track := stop.actual_arrival_track
      scheduled_arrival_track := stop.scheduled_arrival_track
      arrived := stop.arrived
      departed := stop.departed
      stop_type := stop.stop_type
      actual_departure_time := stop.actual_departure_time
      scheduled_departure_time := stop.scheduled_departure_time
      actual_arrival_time := stop.actual_arrival_time
      scheduled_arrival_time := stop.scheduled_arrival_time })

/-- The `Train` class of `orariotreni/trains.py`: the fields set by
`Train.__init__`.  The Python `Station` objects keep a back-reference to the
train; here the train is passed explicitly to the methods that need it. -/
structure Train where
  number : Int
  origin_station_id : Str
  departure_date : DateV
  last_update_station : Option Str
  last_update_time : Option Datetime
  category : Str
  number_changes : List NumberChange
  stops : List Station
  origin : Station
  destination : Station
  departure_time : Datetime
  arrival_time : Datetime
  delay : Int
deriving DecidableEq, Repr

/-- Embedding of `Train.__init__` of `orariotreni/trains.py`: build one `Station` per stop
of the progress snapshot, then take `origin = stops[0]` and
`destination = stops[-1]`.  `none` models the `IndexError` that `stops[0]`
raises on an empty stop list (the `mapOption` stage never fails in practice,
since every stop finds at least itself). -/
def Train.ofProgress (number : Int) (origin_station_id : Str)
    (departure_date : DateV) (p : TrainProgress) : Option Train :=
  match mapOption
      (fun s => Station.fromStops s.station_id s.name p.stops) p.stops with
  | none => none
  | some [] => none
  | some (b :: bs) =>
    some
      { number := number
        origin_station_id := origin_station_id
        departure_date := departure_date
        last_update_station := p.last_update_station
        last_update_time := p.last_update_time
        category := p.category
        number_changes := p.train_number_changes
        stops := b :: bs
        origin := b
        destination := (b :: bs).getLast (List.cons_ne_nil b bs)
        departure_time := p.departure_time
        arrival_time := p.arrival_time
        delay := p.delay }

/-- Embedding of `Train.create` of `orariotreni/trains.py`: the transport fetch is passed
in as its result (`none` models a caught `HTTPException`, upon which `create`
returns `None`); on data, `Train.__init__` runs, whose `IndexError` on an
empty stop list would propagate uncaught. -/
def Train.create (fetched : Option TrainProgress) (number : Int)
    (origin_station_id : Str) (departure_date : DateV) :
    Except PyErr (Option Train) :=
  match fetched with
  | none => Except.ok none
  | some p =>
    match Train.ofProgress number origin_station_id departure_date p with
    | none => Except.error PyErr.indexError
    | some t => Except.ok (some t)

/-- Embedding of `Train.get_formatted_delay` of `orariotreni/trains.py`: if the origin stop
has an actual departure, colour the signed delay (red when late, green when
early) or report In orario; otherwise report Pronto when the origin has an
actual departure track assigned, else Non partito. -/
def Train.get_formatted_delay (tr : Train) : Str :=
  if tr.origin.departed then
    if tr.delay > 0 then fg_red (pyFormatSign tr.delay)
    else if tr.delay < 0 then fg_green (pyFormatSign tr.delay)
    else ("In orario".data)
  else if tr.origin.actual_departure_track.isSome then ("Pronto".data)
  else ("Non partito".data)

/-- Lines 264-276 of `orariotreni/trains.py` (`Station.get_formatted_track`
before the row-weight wrapping): pick the first truthy actual track
(departure side first), the first truthy scheduled track, and colour the
actual blue when it equals the scheduled, magenta when a truthy scheduled
differs, cyan when no truthy scheduled exists; with no truthy actual the
scheduled value is used unstyled (possibly `None`). -/
def trackColorStage (st : Station) : Option Str :=
  let track := pyOr st.actual_departure_track st.actual_arrival_track
  let scheduled_track := pyOr st.scheduled_departure_track st.scheduled_arrival_track
  match track with
  | some t =>
    if t.isEmpty then scheduled_track
    else
      some (if some t = scheduled_track then fg_blue t
            else if truthyS scheduled_track then fg_magenta t
            else fg_cyan t)
  | none => scheduled_track

/-- Embedding of `Station.get_formatted_track` of `orariotreni/trains.py`: the colour stage
above, then the row-weight wrapping (dim when the stop is behind the train
from the viewer's perspective, bold when the train is currently at the stop),
and finally N/A when the value is still `None`.  A dim or bold wrap of a
`None` value renders the text None inside the style codes (Python f-string),
so the final `None` test only fires on unwrapped values. -/
def Station.get_formatted_track (tr : Train) (st : Station) : Str :=
  let track := trackColorStage st
  let track2 : Option Str :=
    if (st.arrived || (tr.origin.actual_departure_time).isSome)
        && (st.departed || (tr.destination.actual_arrival_time).isSome) then
      some (style_dim track)
    else if st.arrived && !st.departed then
      some (style_bold track)
    else track
  match track2 with
  | none => ("N/A".data)
  | some s => s

/-- The colour of a formatted stop time (red = late, green = on time,
yellow = estimated from the delay). -/
inductive TimeColor where
  | red : TimeColor
  | green : TimeColor
  | yellow : TimeColor
deriving DecidableEq, Repr

/-- Embedding of `Station.get_formatted_time` of `orariotreni/trains.py`.  The rendered
string is `strftime("%H:%M")` of one instant, possibly coloured; since that
rendering is a fixed presentation sink, the result is modeled as the pair
(instant shown, colour).  `none` models the `TypeError`/`AttributeError` the
Python raises when the needed scheduled time is `None`. -/
def Station.get_formatted_time (st : Station) (delay : Int)
    (check_departures : Bool) : Option (Datetime × Option TimeColor) :=
  let actual_time :=
    if check_departures then st.actual_departure_time else st.actual_arrival_time
  let scheduled_time :=
    if check_departures then st.scheduled_departure_time else st.scheduled_arrival_time
  match actual_time with
  | some a =>
    match scheduled_time with
    | some s =>
      some (if a > s + 30000 then (a, some TimeColor.red)
            else (a, some TimeColor.green))
    | none => none
  | none =>
    if delay > 0 then
      match scheduled_time with
      | some s => some (s + delay * 60000, some TimeColor.yellow)
      | none => none
    else
      match scheduled_time with
      | some s => some (s, none)
      | none => none

/-- One assembled board row (`Station.process_train` returns the list
`[train, station_name, scheduled_time, formatted_delay, formatted_track]`;
the `strftime("%H:%M")` rendering of the scheduled time is kept as the
instant itself, as in `Station.get_formatted_time`). -/
structure Row where
  train : Train
  station_name : Str
  scheduled_time : Datetime
  delay_text : Str
  track_text : Str
deriving DecidableEq, Repr

/-- Embedding of `Station.process_train` of `orariotreni/trains.py`, called with the board
station id as `self`: find the reference stop in the train's stop list
(raising `NotImplementedError` when absent), pick the opposite endpoint name
and the relevant scheduled time, and format delay and track.  A `None` train
(a failed `Train.create`) raises `AttributeError` on the first attribute
access; a missing scheduled time raises on `strftime`. -/
def process_train (sid : Str) (train : Option Train) (check_departures : Bool) :
    Except PyErr Row :=
  match train with
  | none => Except.error PyErr.attributeError
  | some tr =>
    match tr.stops.find? (fun s => s.station_id = sid) with
    | none => Except.error PyErr.notImplementedError
    | some station =>
      let pick :=
        if check_departures then (tr.destination.name, station.scheduled_departure_time)
        else (tr.origin.name, station.scheduled_arrival_time)
      match pick.snd with
      | none => Except.error PyErr.attributeError
      | some t =>
        Except.ok
          { train := tr
            station_name := pick.fst
            scheduled_time := t
            delay_text := tr.get_formatted_delay
            track_text := Station.get_formatted_track tr station }

/-- The Delay Rule of the specification (section 4.5.3), written from its
words: given the delay, whether the train has departed from its origin, and
whether the origin's actual departure track is known, produce the delay/status
text.  The spec names the three texts On time / Ready / Not departed; the
program's literal strings are the Italian In orario / Pronto / Non partito,
and warning style is red, positive style is green. -/
def delayTextSpec (delay : Int) (departed_from_origin : Bool)
    (origin_track_known : Bool) : Str :=
  if departed_from_origin then
    if delay > 0 then fg_red (pyFormatSign delay)
    else if delay < 0 then fg_green (pyFormatSign delay)
    else ("In orario".data)
  else if origin_track_known then ("Pronto".data)
  else ("Non partito".data)

/-- The visual weight of a board/progress row. -/
inductive RowStyle where
  | plain : RowStyle
  | dimmed : RowStyle
  | bold : RowStyle
deriving DecidableEq, Repr

/-- The Row Style Rule of the specification (section 4.5.5), written from its
words: dimmed when (arrived or the origin has actually departed) and
(departed or the destination has actually arrived); bold when arrived and not
departed; plain otherwise. -/
def rowStyleSpec (arrived departed origin_actually_departed
    destination_actually_arrived : Bool) : RowStyle :=
  if (arrived || origin_actually_departed)
      && (departed || destination_actually_arrived) then RowStyle.dimmed
  else if arrived && !departed then RowStyle.bold
  else RowStyle.plain

/-- The time-display rule of the specification (section 4.5.6), written from
its words: a known actual time is shown in late style (red) exactly when it
exceeds the scheduled time by more than 30 seconds and in on-time style
(green) otherwise; an unknown actual time with positive delay shows the
scheduled time shifted by the delay in estimated style (yellow); otherwise
the bare scheduled time with no style. -/
def timeLineSpec (actual : Option Datetime) (s : Datetime) (delay : Int) :
    Datetime × Option TimeColor :=
  match actual with
  | some a =>
    if a > s + 30000 then (a, some TimeColor.red) else (a, some TimeColor.green)
  | none =>
    if delay > 0 then (s + delay * 60000, some TimeColor.yellow) else (s, none)

/-- The function `Station.get_formatted_track` is exactly its colour stage wrapped by the
row weight that `rowStyleSpec` computes, with `None` falling back to N/A only
in the plain case (a dim/bold wrap renders `None` as text). -/
theorem formatted_track_split (tr : Train) (st : Station) :
    Station.get_formatted_track tr st =
      (match rowStyleSpec st.arrived st.departed
          (tr.origin.actual_departure_time).isSome
          (tr.destination.actual_arrival_time).isSome with
       | RowStyle.dimmed => style_dim (trackColorStage st)
       | RowStyle.bold => style_bold (trackColorStage st)
       | RowStyle.plain =>
         match trackColorStage st with
         | none => ("N/A".data)
         | some s => s) := by
  cases harr : st.arrived <;> cases hdep : st.departed <;>
    cases ho : (tr.origin.actual_departure_time).isSome <;>
    cases hd : (tr.destination.actual_arrival_time).isSome <;>
    simp [Station.get_formatted_track, rowStyleSpec, harr, hdep, ho, hd]

/-- A baseline stop-station fixture (Milano Centrale as a departure stop with
no real-time information). -/
def stBase : Station :=
  { station_id := ("S01700".data)
    name := ("MILANO CENTRALE".data)
    actual_departure_track := none
    scheduled_departure_track := none
    actual_arrival_track := none
    scheduled_arrival_track := none
    arrived := false
    departed := false
    stop_type := StopType.departure
    actual_departure_time := none
    scheduled_departure_time := some 480000
    actual_arrival_time := none
    scheduled_arrival_time := none }

/-- A destination stop fixture (Roma Termini as an arrival stop). -/
def stDest : Station :=
  { station_id := ("S05066".data)
    name := ("ROMA TERMINI".data)
    actual_departure_track := none
    scheduled_departure_track := none
    actual_arrival_track := none
    scheduled_arrival_track := some ("3".data)
    arrived := false
    departed := false
    stop_type := StopType.arrival
    actual_departure_time := none
    scheduled_departure_time := none
    actual_arrival_time := none
    scheduled_arrival_time := some 540000 }

/-- A concrete train fixture over the two stops above, not yet departed. -/
def trBase : Train :=
  { number := 9999
    origin_station_id := ("S01700".data)
    departure_date := 19738
    last_update_station := none
    last_update_time := none
    category := ("FR".data)
    number_changes := []
    stops := [stBase, stDest]
    origin := stBase
    destination := stDest
    departure_time := 480000
    arrival_time := 540000
    delay := 0 }

/-- A stop fixture whose actual departure track equals the scheduled one. -/
def stBlue : Station :=
  { stBase with
    actual_departure_track := some ("5".data)
    scheduled_departure_track := some ("5".data) }

/-- C1.  Delay Rule: `Train.get_formatted_delay` agrees with the spec's Delay
Rule on every train: once the train has departed from its origin, a positive
delay gives the signed delay in warning (red) style, a negative delay gives
it in positive (green) style, and zero gives the on-time text (the literal
string is the Italian In orario); a not-yet-departed train shows the ready
text (Pronto) exactly when the origin's actual departure track is known, and
the not-departed text (Non partito) otherwise. -/
theorem delay_rule_matches_spec (tr : Train) :
    tr.get_formatted_delay =
      delayTextSpec tr.delay tr.origin.departed
        (tr.origin.actual_departure_track).isSome := rfl

/-- C3.  Row Style Rule: for every reference stop of a train with real-time
data, `Station.get_formatted_track` renders the track dimmed when (the stop's
arrived flag is set or the journey's origin has an actual departure time) and
(the stop's departed flag is set or the destination has an actual arrival
time); bold when arrived and not departed; and with no weight wrapping
otherwise — exactly the spec's Row Style Rule, applied around the colour
stage of the track text. -/
theorem row_style_rule_matches_spec (tr : Train) (st : Station) :
    Station.get_formatted_track tr st =
      (match rowStyleSpec st.arrived st.departed
          (tr.origin.actual_departure_time).isSome
          (tr.destination.actual_arrival_time).isSome with
       | RowStyle.dimmed => style_dim (trackColorStage st)
       | RowStyle.bold => style_bold (trackColorStage st)
       | RowStyle.plain =>
         match trackColorStage st with
         | none => ("N/A".data)
         | some s => s) :=
  formatted_track_split tr st

/-- C5.  Zero-timestamp sentinel: `to_datetime` maps `None` and `0` to `None`
and every other integer to the instant that many milliseconds after the Unix
epoch. -/
theorem zero_timestamp_sentinel :
    to_datetime none = none ∧ to_datetime (some 0) = none ∧
      ∀ t : Int, t ≠ 0 → to_datetime (some t) = some t := by
  refine ⟨rfl, rfl, fun t ht => ?_⟩
  simp [to_datetime, ht]

/-- Witness for C5 at the spec's own example input 1700000000000. -/
theorem zero_timestamp_sentinel_witness :
    to_datetime (some 1700000000000) = some 1700000000000 :=
  zero_timestamp_sentinel.2.2 1700000000000 (by decide)

/-- C6 counterexample: the claim says every unrecognized stop-type code makes
the decoder raise, but `map_stop_type` of `orariotreni/utils.py` returns the
unknown code X unchanged — a normal, silent return that is none of the three
decoded kinds. -/
theorem stop_kind_cex :
    orariotreni.map_stop_type ('X' :: []) = ('X' :: [])
      ∧ (('X' :: []) : Str) ≠ ("departure".data)
      ∧ (('X' :: []) : Str) ≠ ("intermediate".data)
      ∧ (('X' :: []) : Str) ≠ ("arrival".data) := by
  refine ⟨rfl, by decide, by decide, by decide⟩

/-- C6 amended: both decoders map P to Departure, F to Intermediate and A to
Arrival; on any other input the `api/utils.py` variant raises `KeyError`
(there is no dedicated UnknownStopKind exception anywhere in the code), while
the `orariotreni/utils.py` variant silently returns the input unchanged. -/
theorem stop_kind_decoding (s : Str) :
    api.map_stop_type ('P' :: []) = some StopType.departure
      ∧ api.map_stop_type ('F' :: []) = some StopType.intermediate
      ∧ api.map_stop_type ('A' :: []) = some StopType.arrival
      ∧ orariotreni.map_stop_type ('P' :: []) = ("departure".data)
      ∧ orariotreni.map_stop_type ('F' :: []) = ("intermediate".data)
      ∧ orariotreni.map_stop_type ('A' :: []) = ("arrival".data)
      ∧ (s ≠ ('P' :: []) → s ≠ ('F' :: []) → s ≠ ('A' :: []) →
          api.map_stop_type s = none ∧ orariotreni.map_stop_type s = s) := by
  refine ⟨rfl, rfl, rfl, rfl, rfl, rfl, fun h1 h2 h3 => ⟨?_, ?_⟩⟩ <;>
    simp [api.map_stop_type, orariotreni.map_stop_type, h1, h2, h3]

/-- Witness for C6 amended at the unrecognized code Z. -/
theorem stop_kind_decoding_witness :
    api.map_stop_type ('Z' :: []) = none
      ∧ orariotreni.map_stop_type ('Z' :: []) = ('Z' :: []) :=
  (stop_kind_decoding ('Z' :: [])).2.2.2.2.2.2 (by decide) (by decide) (by decide)

/-- C9.  Time display rule: whenever the relevant scheduled time is known,
`Station.get_formatted_time` renders a known actual time in late (red) style
exactly when it exceeds the scheduled time by more than 30 seconds and in
on-time (green) style otherwise; with the actual time unknown it shows the
scheduled time shifted by a positive delay in estimated (yellow) style, and
the bare scheduled time with no style when the delay is not positive. -/
theorem time_display_rule (st : Station) (delay : Int) (chk : Bool)
    (s : Datetime)
    (hs : (if chk then st.scheduled_departure_time
           else st.scheduled_arrival_time) = some s) :
    Station.get_formatted_time st delay chk =
      some (timeLineSpec
        (if chk then st.actual_departure_time else st.actual_arrival_time)
        s delay) := by
  cases ha : (if chk then st.actual_departure_time
              else st.actual_arrival_time) with
  | some a =>
    simp only [Station.get_formatted_time, timeLineSpec, hs, ha]
  | none =>
    simp only [Station.get_formatted_time, timeLineSpec, hs, ha]
    split <;> simp

/-- Witness for C9 at the fixture stop (scheduled departure known, actual
unknown, delay 5): the shown instant is the scheduled time shifted by 5
minutes, in estimated style. -/
theorem time_display_rule_witness :
    Station.get_formatted_time stBase 5 true =
      some (timeLineSpec stBase.actual_departure_time 480000 5) :=
  time_display_rule stBase 5 true 480000 rfl

/-- C2 counterexample: on a reference stop with no track information at all
(all four track fields `None`) in a plain-weight row, the claim's Track Rule
prescribes the empty string, but `Station.get_formatted_track` returns the
text N/A. -/
theorem track_rule_cex :
    Station.get_formatted_track trBase stBase = ("N/A".data)
      ∧ ("N/A".data : Str) ≠ [] := by
  refine ⟨rfl, by decide⟩

/-- C2 amended: `Station.get_formatted_track` does not look at one board
side; it takes actual = the departure-side actual track if truthy else the
arrival-side one, and scheduled likewise, with Python truthiness (an empty
string counts as absent).  A truthy actual equal to scheduled is shown in
unchanged (blue) style; a truthy actual with a truthy different scheduled in
changed (magenta) style; a truthy actual with no truthy scheduled in a third,
distinct (cyan) style — not the changed style; a non-truthy actual yields the
scheduled value unstyled; and when the resulting value is `None` the function
returns N/A in a plain-weight row, while a dimmed or bold row renders the
text None inside the weight codes. -/
theorem track_rule_amended (tr : Train) (st : Station) :
    (∀ t : Str,
        pyOr st.actual_departure_track st.actual_arrival_track = some t →
        ¬t.isEmpty →
        pyOr st.actual_departure_track st.actual_arrival_track
          = pyOr st.scheduled_departure_track st.scheduled_arrival_track →
        trackColorStage st = some (fg_blue t))
    ∧ (∀ t : Str,
        pyOr st.actual_departure_track st.actual_arrival_track = some t →
        ¬t.isEmpty →
        pyOr st.actual_departure_track st.actual_arrival_track
          ≠ pyOr st.scheduled_departure_track st.scheduled_arrival_track →
        truthyS (pyOr st.scheduled_departure_track st.scheduled_arrival_track)
          = true →
        trackColorStage st = some (fg_magenta t))
    ∧ (∀ t : Str,
        pyOr st.actual_departure_track st.actual_arrival_track = some t →
        ¬t.isEmpty →
        truthyS (pyOr st.scheduled_departure_track st.scheduled_arrival_track)
          = false →
        trackColorStage st = some (fg_cyan t))
    ∧ (truthyS (pyOr st.actual_departure_track st.actual_arrival_track)
          = false →
        trackColorStage st
          = pyOr st.scheduled_departure_track st.scheduled_arrival_track)
    ∧ (rowStyleSpec st.arrived st.departed
          (tr.origin.actual_departure_time).isSome
          (tr.destination.actual_arrival_time).isSome = RowStyle.plain →
        trackColorStage st = none →
        Station.get_formatted_track tr st = ("N/A".data))
    ∧ (rowStyleSpec st.arrived st.departed
          (tr.origin.actual_departure_time).isSome
          (tr.destination.actual_arrival_time).isSome = RowStyle.dimmed →
        trackColorStage st = none →
        Station.get_formatted_track tr st = style_dim none)
    ∧ (rowStyleSpec st.arrived st.departed
          (tr.origin.actual_departure_time).isSome
          (tr.destination.actual_arrival_time).isSome = RowStyle.bold →
        trackColorStage st = none →
        Station.get_formatted_track tr st = style_bold none) := by
  refine ⟨?_, ?_, ?_, ?_, ?_, ?_, ?_⟩
  · intro t ht hne heq
    simp only [trackColorStage, ht] at *
    simp [← heq, ht, hne]
  · intro t ht hne hdiff htr
    rw [ht] at hdiff
    simp only [trackColorStage, ht]
    simp [hne, hdiff, htr]
  · intro t ht hne hfal
    have hdiff : some t ≠
        pyOr st.scheduled_departure_track st.scheduled_arrival_track := by
      intro hcontra
      rw [← hcontra] at hfal
      simp [truthyS, hne] at hfal
    simp only [trackColorStage, ht]
    simp [hne, hdiff, hfal]
  · intro hfal
    cases ht : pyOr st.actual_departure_track st.actual_arrival_track with
    | none => simp [trackColorStage, ht]
    | some t =>
      rw [ht] at hfal
      have hemp : t.isEmpty = true := by simpa [truthyS] using hfal
      simp [trackColorStage, ht, hemp]
  · intro hstyle hnone
    rw [formatted_track_split, hstyle, hnone]
  · intro hstyle hnone
    rw [formatted_track_split, hstyle, hnone]
  · intro hstyle hnone
    rw [formatted_track_split, hstyle, hnone]

/-- Witness for C2 amended: the unchanged-track (blue) case at a stop whose
actual and scheduled departure tracks are both the string 5. -/
theorem track_rule_amended_witness :
    trackColorStage stBlue = some (fg_blue ("5".data)) :=
  (track_rule_amended trBase stBlue).1 ("5".data) rfl (by decide) rfl

/-- Reading a digit back from `Nat.digitChar` recovers the digit. -/
theorem charToDigit_digitChar (d : Nat) (h : d < 10) :
    charToDigit (Nat.digitChar d) = some d := by
  interval_cases d <;> decide

/-- A decimal digit never renders as the minus-sign character. -/
theorem digitChar_ne_dash (d : Nat) (h : d < 10) : Nat.digitChar d ≠ '-' := by
  interval_cases d <;> decide

/-- Parsing a rendered digit list recovers the digits. -/
theorem mapOption_charToDigit_digitChar (l : List Nat) (h : ∀ d ∈ l, d < 10) :
    mapOption charToDigit (l.map Nat.digitChar) = some l := by
  induction l with
  | nil => rfl
  | cons d T ih =>
    simp only [List.map_cons, mapOption]
    rw [charToDigit_digitChar d (h d (by simp))]
    rw [ih (fun x hx => h x (by simp [hx]))]

/-- Folding the base-10 accumulator over a most-significant-first digit list
computes the number the little-endian list denotes. -/
theorem foldl_digits_reverse (L : List Nat) (a : Nat) :
    L.reverse.foldl (fun acc d => acc * 10 + d) a
      = a * 10 ^ L.length + Nat.ofDigits 10 L := by
  induction L generalizing a with
  | nil => simp [Nat.ofDigits_nil]
  | cons d T ih =>
    simp only [List.reverse_cons, List.foldl_append, List.foldl_cons,
      List.foldl_nil, ih, Nat.ofDigits_cons, List.length_cons, Nat.cast_id]
    ring

/-- Leading zeros do not change the accumulated value. -/
theorem foldl_replicate_zero (k : Nat) :
    (List.replicate k 0).foldl (fun acc d => acc * 10 + d) 0 = 0 := by
  induction k with
  | zero => rfl
  | succ n ih => simpa [List.replicate_succ] using ih

/-- C4.  Round-trip law: for every ENEE code in `0 .. 99999`, formatting it
with `to_station_id` (the letter S followed by the zero-padded 5-digit code)
and parsing the result with `to_enee_code` yields the code back. -/
theorem enee_code_round_trip (x : Nat) (hx : x ≤ 99999) :
    to_enee_code (to_station_id x) = some (x : Int) := by
  have hdig : ∀ d ∈ padZeros 5 (decimalDigitsMSB x), d < 10 := by
    intro d hd
    unfold padZeros at hd
    rcases List.mem_append.mp hd with h | h
    · have := List.eq_of_mem_replicate h; omega
    · exact Nat.digits_lt_base (by norm_num)
        (List.mem_reverse.mp h)
  have hPne : padZeros 5 (decimalDigitsMSB x) ≠ [] := by
    unfold padZeros
    intro h
    have hlen := congrArg List.length h
    rw [List.length_append, List.length_replicate, List.length_nil] at hlen
    omega
  obtain ⟨d0, P', hP⟩ :
      ∃ d0 P', padZeros 5 (decimalDigitsMSB x) = d0 :: P' := by
    cases hc : padZeros 5 (decimalDigitsMSB x) with
    | nil => exact absurd hc hPne
    | cons a l => exact ⟨a, l, rfl⟩
  have hd0 : d0 < 10 := hdig d0 (by rw [hP]; exact List.mem_cons_self d0 P')
  have hcs : (padZeros 5 (decimalDigitsMSB x)).map Nat.digitChar
      = Nat.digitChar d0 :: P'.map Nat.digitChar := by rw [hP]; rfl
  have hfold : (padZeros 5 (decimalDigitsMSB x)).foldl
      (fun a d => a * 10 + d) 0 = x := by
    unfold padZeros decimalDigitsMSB
    rw [List.foldl_append, foldl_replicate_zero, foldl_digits_reverse]
    simp [Nat.ofDigits_digits]
  have hval : digitsVal ((padZeros 5 (decimalDigitsMSB x)).map Nat.digitChar)
      = some x := by
    unfold digitsVal
    rw [mapOption_charToDigit_digitChar _ hdig]
    simp only [hcs, List.isEmpty_cons, Bool.false_eq_true, if_false]
    exact congrArg some hfold
  have hpy : pyInt ((padZeros 5 (decimalDigitsMSB x)).map Nat.digitChar)
      = some (x : Int) := by
    unfold pyInt
    rw [hcs]
    simp only [List.head?_cons]
    rw [if_neg (by simpa using digitChar_ne_dash d0 hd0)]
    rw [← hcs, hval]
    rfl
  unfold to_station_id to_enee_code
  simp only [List.take_succ_cons, List.take_zero, List.drop_succ_cons,
    List.drop_zero, if_pos rfl]
  rw [hpy]
  have : ¬((x : Int) < MIN_ENEE_CODE ∨ MAX_ENEE_CODE < (x : Int)) := by
    unfold MIN_ENEE_CODE MAX_ENEE_CODE
    omega
  simp [this]

/-- Witness for C4 at the ENEE code 1700 (Milano Centrale). -/
theorem enee_code_round_trip_witness :
    to_enee_code (to_station_id 1700) = some (1700 : Int) :=
  enee_code_round_trip 1700 (by norm_num)

/-- A successful `mapOption` run preserves the length. -/
theorem mapOption_some_length {f : α → Option β} :
    ∀ {l : List α} {ys : List β}, mapOption f l = some ys →
      ys.length = l.length := by
  intro l
  induction l with
  | nil =>
    intro ys h
    simp only [mapOption, Option.some.injEq] at h
    simp [← h]
  | cons a t ih =>
    intro ys h
    unfold mapOption at h
    cases hfa : f a with
    | none => rw [hfa] at h; exact absurd h (by simp)
    | some b =>
      rw [hfa] at h
      cases hmt : mapOption f t with
      | none => rw [hmt] at h; exact absurd h (by simp)
      | some bs =>
        rw [hmt] at h
        simp only [Option.some.injEq] at h
        rw [← h]
        simp [ih hmt]

/-- A successful `mapOption` run computes each output element from the input
element at the same position. -/
theorem mapOption_some_get {f : α → Option β} :
    ∀ {l : List α} {ys : List β}, mapOption f l = some ys →
      ∀ i (hi : i < l.length) (hy : i < ys.length), f (l[i]) = some (ys[i]) := by
  intro l
  induction l with
  | nil => intro ys h i hi hy; exact absurd hi (by simp)
  | cons a t ih =>
    intro ys h i hi hy
    unfold mapOption at h
    cases hfa : f a with
    | none => rw [hfa] at h; exact absurd h (by simp)
    | some b =>
      rw [hfa] at h
      cases hmt : mapOption f t with
      | none => rw [hmt] at h; exact absurd h (by simp)
      | some bs =>
        rw [hmt] at h
        simp only [Option.some.injEq] at h
        subst h
        cases i with
        | zero => simpa using hfa
        | succ j =>
          have hj : j < t.length := by simpa using hi
          have hjy : j < bs.length := by simpa using hy
          simpa using ih hmt j hj hjy

/-- The map `mapOption` succeeds when every element succeeds. -/
theorem mapOption_isSome_of_all {f : α → Option β} :
    ∀ (l : List α), (∀ a ∈ l, (f a).isSome) → (mapOption f l).isSome := by
  intro l
  induction l with
  | nil => intro h; simp [mapOption]
  | cons a t ih =>
    intro h
    obtain ⟨b, hb⟩ := Option.isSome_iff_exists.mp (h a (by simp))
    obtain ⟨bs, hbs⟩ := Option.isSome_iff_exists.mp
      (ih (fun x hx => h x (by simp [hx])))
    simp [mapOption, hb, hbs]

/-- The lookup `Station.fromStops` succeeds whenever the queried id belongs to a stop of
the list (in particular for every stop of the list itself). -/
theorem fromStops_isSome (s : TrainStop) (stops : List TrainStop)
    (hs : s ∈ stops) :
    (Station.fromStops s.station_id s.name stops).isSome := by
  unfold Station.fromStops
  rw [Option.isSome_map']
  exact List.find?_isSome.mpr ⟨s, hs, by simp⟩

/-- Whatever stop record the lookup copies from, the `station_id` and `name`
of a `Station` built by `Station.fromStops` are the ones passed in. -/
theorem fromStops_some_fields {sid nm : Str} {stops : List TrainStop}
    {st : Station} (h : Station.fromStops sid nm stops = some st) :
    st.station_id = sid ∧ st.name = nm := by
  unfold Station.fromStops at h
  obtain ⟨stop, _, hst⟩ := Option.map_eq_some'.mp h
  exact ⟨by rw [← hst], by rw [← hst]⟩

/-- Running `Train.__init__` on a nonempty stop list: the construction succeeds and
anchors the origin at the first stop and the destination at the last stop. -/
theorem ofProgress_endpoints (n : Int) (oid : Str) (dd : DateV)
    (p : TrainProgress) (h : p.stops ≠ []) :
    ∃ t, Train.ofProgress n oid dd p = some t
      ∧ t.origin.station_id = (p.stops.head h).station_id
      ∧ t.origin.name = (p.stops.head h).name
      ∧ t.destination.station_id = (p.stops.getLast h).station_id
      ∧ t.destination.name = (p.stops.getLast h).name := by
  have hms := mapOption_isSome_of_all
    (f := fun s => Station.fromStops s.station_id s.name p.stops) p.stops
    (fun s hs => fromStops_isSome s p.stops hs)
  obtain ⟨built, hb⟩ := Option.isSome_iff_exists.mp hms
  have hlen := mapOption_some_length hb
  have hbne : built ≠ [] := by
    intro hnil
    have hz : p.stops.length = 0 := by rw [← hlen, hnil]; rfl
    exact h (List.length_eq_zero.mp hz)
  obtain ⟨b, bs, hbc⟩ : ∃ b bs, built = b :: bs := by
    cases built with
    | nil => exact absurd rfl hbne
    | cons b bs => exact ⟨b, bs, rfl⟩
  subst hbc
  have hof : Train.ofProgress n oid dd p = some
      { number := n
        origin_station_id := oid
        departure_date := dd
        last_update_station := p.last_update_station
        last_update_time := p.last_update_time
        category := p.category
        number_changes := p.train_number_changes
        stops := b :: bs
        origin := b
        destination := (b :: bs).getLast (List.cons_ne_nil b bs)
        departure_time := p.departure_time
        arrival_time := p.arrival_time
        delay := p.delay } := by
    unfold Train.ofProgress
    rw [hb]
  have h0s : 0 < p.stops.length := List.length_pos.mpr h
  have h0b : 0 < (b :: bs).length := by simp
  have hhead := mapOption_some_get hb 0 h0s h0b
  have hheadf := fromStops_some_fields hhead
  have hls : p.stops.length - 1 < p.stops.length := by omega
  have hlb : p.stops.length - 1 < (b :: bs).length := by rw [hlen]; omega
  have hlast := mapOption_some_get hb (p.stops.length - 1) hls hlb
  have hlastf := fromStops_some_fields hlast
  refine ⟨_, hof, ?_, ?_, ?_, ?_⟩
  · rw [List.head_eq_getElem]
    simpa using hheadf.1
  · rw [List.head_eq_getElem]
    simpa using hheadf.2
  · rw [List.getLast_eq_getElem, List.getLast_eq_getElem]
    have hidx : (b :: bs).length - 1 = p.stops.length - 1 := by rw [hlen]
    simp only [hidx]
    simpa using hlastf.1
  · rw [List.getLast_eq_getElem, List.getLast_eq_getElem]
    have hidx : (b :: bs).length - 1 = p.stops.length - 1 := by rw [hlen]
    simp only [hidx]
    simpa using hlastf.2

/-- Relabel the kind of every stop of a progress snapshot, leaving every
other field unchanged. -/
def mapStopKinds (g : StopType → StopType) (p : TrainProgress) : TrainProgress :=
  { p with stops := p.stops.map (fun s => { s with stop_type := g s.stop_type }) }

/-- C10.  Journey-endpoint anchoring: for every progress snapshot with a
nonempty stop list, `Train.__init__` anchors the origin at the first element
of `stops` and the destination at the last element, and the stops' kind field
is never consulted: relabelling every stop kind arbitrarily (in particular,
placing Departure- or Arrival-kind stops anywhere in the list) leaves the
endpoints unchanged. -/
theorem journey_endpoint_anchoring (n : Int) (oid : Str) (dd : DateV)
    (p : TrainProgress) (h : p.stops ≠ []) :
    ∃ t, Train.ofProgress n oid dd p = some t
      ∧ t.origin.station_id = (p.stops.head h).station_id
      ∧ t.origin.name = (p.stops.head h).name
      ∧ t.destination.station_id = (p.stops.getLast h).station_id
      ∧ t.destination.name = (p.stops.getLast h).name
      ∧ ∀ g : StopType → StopType,
          ∃ t2, Train.ofProgress n oid dd (mapStopKinds g p) = some t2
            ∧ t2.origin.station_id = t.origin.station_id
            ∧ t2.origin.name = t.origin.name
            ∧ t2.destination.station_id = t.destination.station_id
            ∧ t2.destination.name = t.destination.name := by
  obtain ⟨t, hof, ho1, ho2, hd1, hd2⟩ := ofProgress_endpoints n oid dd p h
  refine ⟨t, hof, ho1, ho2, hd1, hd2, fun g => ?_⟩
  have hne2 : (mapStopKinds g p).stops ≠ [] := by
    simp only [mapStopKinds]
    intro hnil
    exact h (List.map_eq_nil_iff.mp hnil)
  obtain ⟨t2, hof2, h21, h22, h23, h24⟩ :=
    ofProgress_endpoints n oid dd (mapStopKinds g p) hne2
  refine ⟨t2, hof2, ?_, ?_, ?_, ?_⟩
  · rw [h21, ho1]
    show ((p.stops.map (fun s : TrainStop =>
      { s with stop_type := g s.stop_type })).head hne2).station_id
      = (p.stops.head h).station_id
    rw [List.head_map]
  · rw [h22, ho2]
    show ((p.stops.map (fun s : TrainStop =>
      { s with stop_type := g s.stop_type })).head hne2).name
      = (p.stops.head h).name
    rw [List.head_map]
  · rw [h23, hd1]
    show ((p.stops.map (fun s : TrainStop =>
      { s with stop_type := g s.stop_type })).getLast hne2).station_id
      = (p.stops.getLast h).station_id
    rw [List.getLast_map]
  · rw [h24, hd2]
    show ((p.stops.map (fun s : TrainStop =>
      { s with stop_type := g s.stop_type })).getLast hne2).name
      = (p.stops.getLast h).name
    rw [List.getLast_map]

/-- The completion log of a pool of already-determined task outcomes: running
the futures in completion order `order` produces, in that order, the pairs
(submission index, outcome).  Out-of-range indices contribute nothing.  Task
outcomes are pure, so the outcome stored in a future does not depend on when
it completes. -/
def completionLog {β : Type} (tasks : List β) (order : List Nat) :
    List (Nat × β) :=
  order.filterMap (fun i => (tasks[i]?).map (fun r => (i, r)))

/-- Reading the futures list back in submission order: the outcome of future
`i` is the logged result with index `i` (`missing` stands for a future that
never completed, which cannot happen when `order` runs every task). -/
def collectByIndex {β : Type} (n : Nat) (log : List (Nat × β)) (missing : β) :
    List β :=
  (List.range n).map (fun i =>
    match log.find? (fun pr => pr.fst = i) with
    | some pr => pr.snd
    | none => missing)

/-- The board-assembly loop of `Station.show_timetable` of
`orariotreni/trains.py`: `Train.create` runs sequentially at submission time
(it is an argument of `executor.submit`), each submitted future computes
`process_train`, the pool completes the futures in the arbitrary order
`order`, and the final loop reads the futures in submission order,
re-raising the first stored exception (`mapExcept id`). -/
def show_timetable_rows (sid : Str) (check_departures : Bool)
    (entries : List Departure)
    (fetchP : Int → Str → DateV → Option TrainProgress) (order : List Nat) :
    Except PyErr (List Row) :=
  match mapExcept (fun e =>
      Train.create (fetchP e.number e.origin_station_id e.departure_date)
        e.number e.origin_station_id e.departure_date) entries with
  | Except.error er => Except.error er
  | Except.ok trains =>
    let tasks := trains.map (fun t => process_train sid t check_departures)
    mapExcept id (collectByIndex tasks.length (completionLog tasks order)
      (Except.error PyErr.pending))

/-- A successful `mapExcept` run preserves the length. -/
theorem mapExcept_ok_length {f : α → Except ε β} :
    ∀ {l : List α} {ys : List β}, mapExcept f l = Except.ok ys →
      ys.length = l.length := by
  intro l
  induction l with
  | nil =>
    intro ys h
    simp only [mapExcept, Except.ok.injEq] at h
    simp [← h]
  | cons a t ih =>
    intro ys h
    unfold mapExcept at h
    cases hfa : f a with
    | error e => rw [hfa] at h; exact absurd h (by simp)
    | ok b =>
      rw [hfa] at h
      cases hmt : mapExcept f t with
      | error e => rw [hmt] at h; exact absurd h (by simp)
      | ok bs =>
        rw [hmt] at h
        simp only [Except.ok.injEq] at h
        rw [← h]
        simp [ih hmt]

/-- A successful `mapExcept` run computes each output element from the input
element at the same position. -/
theorem mapExcept_ok_get {f : α → Except ε β} :
    ∀ {l : List α} {ys : List β}, mapExcept f l = Except.ok ys →
      ∀ i (hi : i < l.length) (hy : i < ys.length),
        f (l[i]) = Except.ok (ys[i]) := by
  intro l
  induction l with
  | nil => intro ys h i hi hy; exact absurd hi (by simp)
  | cons a t ih =>
    intro ys h i hi hy
    unfold mapExcept at h
    cases hfa : f a with
    | error e => rw [hfa] at h; exact absurd h (by simp)
    | ok b =>
      rw [hfa] at h
      cases hmt : mapExcept f t with
      | error e => rw [hmt] at h; exact absurd h (by simp)
      | ok bs =>
        rw [hmt] at h
        simp only [Except.ok.injEq] at h
        subst h
        cases i with
        | zero => simpa using hfa
        | succ j =>
          have hj : j < t.length := by simpa using hi
          have hjy : j < bs.length := by simpa using hy
          simpa using ih hmt j hj hjy

/-- If one element of the list maps to an error, the whole `mapExcept` run
ends in an error (the first one hit). -/
theorem mapExcept_error_of_mem {f : α → Except ε β} :
    ∀ {l : List α} {x : α} {e : ε}, x ∈ l → f x = Except.error e →
      ∃ er, mapExcept f l = Except.error er := by
  intro l
  induction l with
  | nil => intro x e hx; exact absurd hx (by simp)
  | cons a t ih =>
    intro x e hx hf
    unfold mapExcept
    cases hfa : f a with
    | error e2 => exact ⟨e2, rfl⟩
    | ok b =>
      have hxt : x ∈ t := by
        rcases List.mem_cons.mp hx with h | h
        · rw [h] at hf; rw [hf] at hfa; exact absurd hfa (by simp)
        · exact h
      obtain ⟨er, her⟩ := ih hxt hf
      rw [her]
      exact ⟨er, rfl⟩

/-- A task index with no stored outcome never appears in the completion log,
whatever the completion order. -/
theorem completionLog_find_none {β : Type} (tasks : List β) (i : Nat)
    (hi : tasks[i]? = none) :
    ∀ order : List Nat,
      (completionLog tasks order).find? (fun pr => pr.fst = i) = none := by
  intro order
  induction order with
  | nil => rfl
  | cons j rest ih =>
    unfold completionLog
    rw [List.filterMap_cons]
    cases hj : tasks[j]? with
    | none => exact ih
    | some r =>
      have hne : j ≠ i := by
        intro h
        rw [h, hi] at hj
        exact absurd hj (by simp)
      unfold completionLog at ih
      simp [List.find?_cons, hne, ih]

/-- Looking an index that the completion order ran up in the completion log
finds the stored outcome of the task with that submission index, whatever the
completion order was. -/
theorem completionLog_find {β : Type} (tasks : List β) :
    ∀ (order : List Nat), ∀ i ∈ order,
      (completionLog tasks order).find? (fun pr => pr.fst = i)
        = (tasks[i]?).map (fun r => (i, r)) := by
  intro order
  induction order with
  | nil => intro i hi; exact absurd hi (by simp)
  | cons j rest ih =>
    intro i hi
    unfold completionLog
    rw [List.filterMap_cons]
    cases hj : tasks[j]? with
    | none =>
      simp only [Option.map_none']
      by_cases hij : i = j
      · subst hij
        rw [hj]
        simp only [Option.map_none']
        exact completionLog_find_none tasks i hj rest
      · have hit : i ∈ rest := by
          rcases List.mem_cons.mp hi with h | h
          · exact absurd h hij
          · exact h
        exact ih i hit
    | some r =>
      simp only [Option.map_some']
      by_cases hij : i = j
      · subst hij
        rw [hj]
        simp only [Option.map_some']
        exact List.find?_cons_of_pos _ (by simp)
      · have hne : ¬((j, r).fst = i) := fun h => hij h.symm
        rw [List.find?_cons_of_neg _ (by simpa using hne)]
        have hit : i ∈ rest := by
          rcases List.mem_cons.mp hi with h | h
          · exact absurd h hij
          · exact h
        exact ih i hit

/-- When the completion order runs every task exactly once (a permutation of
the submission indices), reading the futures back in submission order yields
precisely the task outcomes in submission order. -/
theorem collectByIndex_perm {β : Type} (tasks : List β) (order : List Nat)
    (missing : β) (hperm : order.Perm (List.range tasks.length)) :
    collectByIndex tasks.length (completionLog tasks order) missing = tasks := by
  unfold collectByIndex
  apply List.ext_getElem
  · simp
  · intro i h1 h2
    simp only [List.getElem_map, List.getElem_range]
    have hio : i ∈ order :=
      hperm.mem_iff.mpr (List.mem_range.mpr h2)
    have hfind := completionLog_find tasks order i hio
    rw [hfind, List.getElem?_eq_getElem h2]
    rfl

/-- A successfully constructed train carries the key (number, origin station
id, departure date) it was created with. -/
theorem ofProgress_key {n : Int} {oid : Str} {dd : DateV} {p : TrainProgress}
    {t : Train} (h : Train.ofProgress n oid dd p = some t) :
    t.number = n ∧ t.origin_station_id = oid ∧ t.departure_date = dd := by
  unfold Train.ofProgress at h
  split at h
  · exact absurd h (by simp)
  · exact absurd h (by simp)
  · simp only [Option.some.injEq] at h
    rw [← h]
    exact ⟨rfl, rfl, rfl⟩

/-- A row successfully produced by `process_train` embeds the very train that
was passed in (in particular the passed train was not `None`). -/
theorem process_train_ok {sid : Str} {t : Option Train} {chk : Bool} {r : Row}
    (h : process_train sid t chk = Except.ok r) : t = some r.train := by
  cases t with
  | none => exact absurd h (by simp [process_train])
  | some tr =>
    simp only [process_train] at h
    split at h
    · exact absurd h (by simp)
    · split at h
      · exact absurd h (by simp)
      · simp only [Except.ok.injEq] at h
        rw [← h]

/-- A `Train.create` call that returns an actual train returns one carrying
the key it was called with. -/
theorem create_ok_some_key {fetched : Option TrainProgress} {n : Int}
    {oid : Str} {dd : DateV} {t : Train}
    (h : Train.create fetched n oid dd = Except.ok (some t)) :
    t.number = n ∧ t.origin_station_id = oid ∧ t.departure_date = dd := by
  cases fetched with
  | none => exact absurd h (by simp [Train.create])
  | some p =>
    simp only [Train.create] at h
    cases hof : Train.ofProgress n oid dd p with
    | none => rw [hof] at h; exact absurd h (by simp)
    | some t2 =>
      rw [hof] at h
      simp only [Except.ok.injEq, Option.some.injEq] at h
      rw [h] at hof
      exact ofProgress_key hof

/-- C8.  Order preservation: for every board whose futures complete in an
arbitrary order (any permutation of the submission indices), the assembled
result is identical to the submission-order assembly, and when it succeeds
the row list has one row per entry in the entries' own order: row `i` carries
the train key (number, origin station id, departure date) of entry `i`. -/
theorem board_order_preservation (sid : Str) (chk : Bool)
    (entries : List Departure)
    (fetchP : Int → Str → DateV → Option TrainProgress) (order : List Nat)
    (hperm : order.Perm (List.range entries.length)) :
    show_timetable_rows sid chk entries fetchP order
      = show_timetable_rows sid chk entries fetchP
          (List.range entries.length)
    ∧ ∀ rows, show_timetable_rows sid chk entries fetchP order
          = Except.ok rows →
        rows.length = entries.length
        ∧ ∀ i (hr : i < rows.length) (he : i < entries.length),
            (rows[i]).train.number = (entries[i]).number
            ∧ (rows[i]).train.origin_station_id = (entries[i]).origin_station_id
            ∧ (rows[i]).train.departure_date = (entries[i]).departure_date := by
  cases hstage : mapExcept (fun e =>
      Train.create (fetchP e.number e.origin_station_id e.departure_date)
        e.number e.origin_station_id e.departure_date) entries with
  | error er =>
    constructor
    · simp only [show_timetable_rows, hstage]
    · intro rows hrows
      simp only [show_timetable_rows, hstage] at hrows
      exact absurd hrows (by simp)
  | ok trains =>
    have htr : trains.length = entries.length := mapExcept_ok_length hstage
    have htl : (trains.map (fun t => process_train sid t chk)).length
        = entries.length := by simp [htr]
    have hperm2 : order.Perm
        (List.range (trains.map (fun t => process_train sid t chk)).length) := by
      rw [htl]; exact hperm
    have hperm3 : (List.range entries.length).Perm
        (List.range (trains.map (fun t => process_train sid t chk)).length) := by
      rw [htl]
    have hcoll := collectByIndex_perm
      (trains.map (fun t => process_train sid t chk)) order
      (Except.error PyErr.pending) hperm2
    have hcoll2 := collectByIndex_perm
      (trains.map (fun t => process_train sid t chk))
      (List.range entries.length) (Except.error PyErr.pending) hperm3
    constructor
    · simp only [show_timetable_rows, hstage]
      rw [hcoll, hcoll2]
    · intro rows hrows
      simp only [show_timetable_rows, hstage] at hrows
      rw [hcoll] at hrows
      have hrl : rows.length = entries.length := by
        rw [mapExcept_ok_length hrows]
        exact htl
      refine ⟨hrl, fun i hr he => ?_⟩
      have hit : i < (trains.map (fun t => process_train sid t chk)).length := by
        rw [htl]; exact he
    
      have hgot := mapExcept_ok_get hrows i hit hr
      simp only [id] at hgot
      rw [List.getElem_map] at hgot
      have htrain := process_train_ok hgot
      have hitr : i < trains.length := by rw [htr]; exact he
      have hcreate := mapExcept_ok_get hstage i he hitr
      rw [htrain] at hcreate
      exact create_ok_some_key hcreate

/-- C7 amended: the code has no degraded/approximate row mode.  If the
train-progress fetch of any entry of a board fails (`Train.create` catches
the `HTTPException` and returns `None`), the submitted `process_train` task
raises `AttributeError` on the `None` train, `future.result()` re-raises it
in the assembly loop, and the whole board render aborts with an error instead
of producing one row per entry. -/
theorem board_aborts_on_single_failure (sid : Str) (chk : Bool)
    (entries : List Departure)
    (fetchP : Int → Str → DateV → Option TrainProgress) (order : List Nat)
    (e : Departure) (he : e ∈ entries)
    (hf : fetchP e.number e.origin_station_id e.departure_date = none)
    (hperm : order.Perm (List.range entries.length)) :
    ∃ er, show_timetable_rows sid chk entries fetchP order
      = Except.error er := by
  cases hstage : mapExcept (fun e =>
      Train.create (fetchP e.number e.origin_station_id e.departure_date)
        e.number e.origin_station_id e.departure_date) entries with
  | error er =>
    refine ⟨er, ?_⟩
    simp only [show_timetable_rows, hstage]
  | ok trains =>
    have htr : trains.length = entries.length := mapExcept_ok_length hstage
    obtain ⟨i, hi, hei⟩ := List.mem_iff_getElem.mp he
    have hit : i < trains.length := by rw [htr]; exact hi
    have hcreate := mapExcept_ok_get hstage i hi hit
    rw [hei] at hcreate
    rw [hf] at hcreate
    simp only [Train.create] at hcreate
    have hnone : trains[i] = none := by
      simp only [Except.ok.injEq] at hcreate
      exact hcreate.symm
    have hmem : (none : Option Train) ∈ trains := by
      rw [← hnone]
      exact List.getElem_mem hit
    have hmem2 : process_train sid none chk
        ∈ trains.map (fun t => process_train sid t chk) :=
      List.mem_map_of_mem _ hmem
    have herr : id (process_train sid none chk)
        = Except.error PyErr.attributeError := rfl
    have hperm2 : order.Perm
        (List.range (trains.map (fun t => process_train sid t chk)).length) := by
      simpa [htr] using hperm
    have hcoll := collectByIndex_perm
      (trains.map (fun t => process_train sid t chk)) order
      (Except.error PyErr.pending) hperm2
    obtain ⟨er, her⟩ := mapExcept_error_of_mem hmem2 herr
    refine ⟨er, ?_⟩
    simp only [show_timetable_rows, hstage]
    rw [hcoll]
    exact her

/-- A decoded stop fixture: Milano Centrale as the departure stop of the
fixture journey, already departed from track 5. -/
def tsA : TrainStop :=
  { station_id := ("S01700".data)
    name := ("MILANO CENTRALE".data)
    stop_type := StopType.departure
    actual_arrival_time := none
    actual_departure_time := some 481000
    arrived := false
    departed := true
    scheduled_arrival_time := none
    scheduled_departure_time := some 480000
    scheduled_arrival_track := none
    actual_arrival_track := none
    scheduled_departure_track := some ("5".data)
    actual_departure_track := some ("5".data) }

/-- A decoded stop fixture: Roma Termini as the arrival stop of the fixture
journey, not yet reached. -/
def tsB : TrainStop :=
  { station_id := ("S05066".data)
    name := ("ROMA TERMINI".data)
    stop_type := StopType.arrival
    actual_arrival_time := none
    actual_departure_time := none
    arrived := false
    departed := false
    scheduled_arrival_time := some 540000
    scheduled_departure_time := none
    scheduled_arrival_track := some ("3".data)
    actual_arrival_track := none
    scheduled_departure_track := none
    actual_departure_track := none }

/-- A progress-snapshot fixture for train 9999 over the two stops above. -/
def progAB : TrainProgress :=
  { last_update_time := some 481000
    last_update_station := some ("MILANO CENTRALE".data)
    category := ("FR".data)
    number := 9999
    departure_date := 19738
    origin_station_id := ("S01700".data)
    origin := ("MILANO CENTRALE".data)
    destination := ("ROMA TERMINI".data)
    destination_station_id := ("S05066".data)
    train_number_changes := []
    departure_time := 480000
    arrival_time := 540000
    delay := 0
    warning := []
    delay_reason := none
    stops := [tsA, tsB] }

/-- A raw departures-board entry fixture for train 9999. -/
def depE1 : Departure :=
  { category := ("FR".data)
    number := 9999
    departure_date := 19738
    origin_station_id := ("S01700".data)
    destination := ("ROMA TERMINI".data)
    scheduled_track := some ("5".data)
    actual_track := some ("5".data)
    departure_time := 480000
    departed_from_origin := true
    delay := 0
    warning := none }

/-- A raw departures-board entry fixture for train 500. -/
def depE2 : Departure :=
  { category := ("IC".data)
    number := 500
    departure_date := 19738
    origin_station_id := ("S01700".data)
    destination := ("ROMA TERMINI".data)
    scheduled_track := none
    actual_track := none
    departure_time := 486000
    departed_from_origin := false
    delay := 0
    warning := none }

/-- A fetch fixture: the progress lookup succeeds for train 9999 and fails
(upstream HTTP error) for every other train. -/
def fetchOneFail : Int → Str → DateV → Option TrainProgress :=
  fun n _ _ => if n = 9999 then some progAB else none

/-- C7 counterexample: on a two-entry board where exactly one train-progress
fetch fails, the claim promises two rows with one degraded to approximate
mode; the code instead aborts the whole render with the `AttributeError`
raised by `process_train` on the `None` train. -/
theorem board_single_failure_cex :
    show_timetable_rows ("S01700".data) true ((depE1 :: depE2 :: []))
      fetchOneFail (List.range 2) = Except.error PyErr.attributeError := by
  rfl

/-- Witness for C7 amended at the same two-entry board, with the futures
completing in reversed order. -/
theorem board_aborts_on_single_failure_witness :
    ∃ er, show_timetable_rows ("S01700".data) true ((depE1 :: depE2 :: []))
      fetchOneFail ((1 : Nat) :: (0 : Nat) :: []) = Except.error er :=
  board_aborts_on_single_failure ("S01700".data) true ((depE1 :: depE2 :: []))
    fetchOneFail ((1 : Nat) :: (0 : Nat) :: []) depE2 (by simp)
    (by rfl) (by decide)

/-- Witness for C8 at a concrete two-entry board with both fetches
succeeding and the futures completing in reversed order: the assembly equals
the submission-order assembly. -/
theorem board_order_preservation_witness :
    show_timetable_rows ("S01700".data) true ((depE1 :: depE2 :: []))
        (fun _ _ _ => some progAB) ((1 : Nat) :: (0 : Nat) :: [])
      = show_timetable_rows ("S01700".data) true ((depE1 :: depE2 :: []))
        (fun _ _ _ => some progAB)
        (List.range ((depE1 :: depE2 :: []) : List Departure).length) :=
  (board_order_preservation ("S01700".data) true ((depE1 :: depE2 :: []))
    (fun _ _ _ => some progAB) ((1 : Nat) :: (0 : Nat) :: []) (by decide)).1

/-- Witness for C10 at the fixture progress snapshot: the origin is anchored
at the first stop (Milano Centrale) and the destination at the last stop
(Roma Termini). -/
theorem journey_endpoint_anchoring_witness :
    ∃ t, Train.ofProgress 9999 ("S01700".data) 19738 progAB = some t
      ∧ t.origin.station_id = tsA.station_id
      ∧ t.origin.name = tsA.name
      ∧ t.destination.station_id = tsB.station_id
      ∧ t.destination.name = tsB.name := by
  have hne : progAB.stops ≠ [] := by
    intro h
    exact absurd (congrArg List.length h) (by decide)
  obtain ⟨t, h1, h2, h3, h4, h5, _⟩ :=
    journey_endpoint_anchoring 9999 ("S01700".data) 19738 progAB hne
  exact ⟨t, h1, h2, h3, h4, h5⟩
